import Mathlib

/-!
Shallow embedding of the `combinedicts` multi-source dictionary scraper
(`dictionary_scraper.py`, `dictionary_app.py`).

HTML documents are represented by the results of the CSS-selector queries the
code issues against them: each scraper's view of a fetched page is a record
whose fields hold the texts (and relevant attributes) of the selected nodes,
in document order.  In-place DOM edits that the code performs before reading
a node's `.text` (`decompose` of decorative nodes, `replace_with` of a tag by
its own string — the latter leaves `.text` unchanged) are folded into the
stored text of that node.  All text post-processing done by the Python code
itself (`clean_text`, regex strips, `replace`, truthiness checks) is modelled
explicitly below.
-/

namespace CombineDicts

/-!
String manipulation is modelled over `List Char` with structural recursion
(core `String` primitives are defined by well-founded recursion and do not
reduce in the kernel), wrapped back into `String`. -/

/-- Python `str.split()` with no argument: the maximal runs of
non-whitespace characters, in order. -/
def pyWords (l : List Char) : List (List Char) :=
  (l.foldr (fun c acc =>
    if c.isWhitespace then
      match acc with
      | [] :: _ => acc
      | _ => [] :: acc
    else
      match acc with
      | w :: ws => (c :: w) :: ws
      | [] => [[c]]) []).filter (fun w => ¬ w.isEmpty)

/-- Join words with single spaces. -/
def joinWordsSpace : List (List Char) → List Char
  | [] => []
  | [w] => w
  | w :: ws => w ++ ' ' :: joinWordsSpace ws

/-- `DictionaryScraper.clean_text`: `" ".join(text.strip().split())` — split
on whitespace runs and re-join single-spaced. -/
def clean_text (s : String) : String :=
  String.mk (joinWordsSpace (pyWords s.data))

/-- Python `str.lower()` (ASCII case folding, which is all the alias registry
needs). -/
def strLower (s : String) : String :=
  String.mk (s.data.map Char.toLower)

/-- Python string falsiness: the empty string. -/
def strEmpty (s : String) : Bool :=
  s.data.isEmpty

/-- Python `str.strip()`: whitespace removed from both ends. -/
def strTrim (s : String) : String :=
  String.mk (((s.data.dropWhile Char.isWhitespace).reverse.dropWhile
    Char.isWhitespace).reverse)

/-- One left-to-right pass of Python `str.replace(pat, repl)` for the
non-empty pattern `p :: pat`.  The extra `Nat` is structural-recursion fuel:
every step consumes at least one character, so fuel `≥` the list length makes
the `0` case unreachable. -/
def replaceChars (p : Char) (pat repl : List Char) : Nat → List Char → List Char
  | _, [] => []
  | 0, l => l
  | fuel + 1, c :: rest =>
    if c = p ∧ pat.isPrefixOf rest then
      repl ++ replaceChars p pat repl fuel (rest.drop pat.length)
    else c :: replaceChars p pat repl fuel rest

/-- Python `s.replace(pat, repl)` (every call site uses a non-empty literal
pattern). -/
def strReplace (s pat repl : String) : String :=
  match pat.data with
  | [] => s
  | p :: ps => String.mk (replaceChars p ps repl.data s.data.length s.data)

/-- Python `s.split(sep)` for a one-character separator. -/
def splitOnChar (sep : Char) (l : List Char) : List (List Char) :=
  l.foldr (fun c acc =>
    match acc with
    | w :: ws => if c = sep then [] :: w :: ws else (c :: w) :: ws
    | [] => if c = sep then [[], []] else [[c]]) [[]]

/-- Python `c in s`. -/
def strContains (s : String) (c : Char) : Bool :=
  s.data.contains c

/-- `re.sub(r'^:\s*', '', s)`: drop one leading colon and the whitespace after
it, when present. -/
def stripLeadColon (s : String) : String :=
  match s.data with
  | ':' :: rest => String.mk (rest.dropWhile Char.isWhitespace)
  | _ => s

/-- `re.sub(r'^\s*\d+\s*[:.)]?\s*', '', s)`: strip a leading enumeration
marker (digits, optional `:` `.` `)`); no change when no leading digits. -/
def stripLeadNumber (s : String) : String :=
  let t := s.data.dropWhile Char.isWhitespace
  match t with
  | [] => s
  | c :: _ =>
    if c.isDigit then
      let u := (t.dropWhile Char.isDigit).dropWhile Char.isWhitespace
      let v := match u with
        | ':' :: r => r
        | '.' :: r => r
        | ')' :: r => r
        | _ => u
      String.mk (v.dropWhile Char.isWhitespace)
    else s

/-- `re.sub(r'^example\s*[:.]\s*', '', s, flags=IGNORECASE)`: strip an
`Example:` / `example.` marker; the `[:.]` character is mandatory. -/
def stripExampleMarker (s : String) : String :=
  if "example".data.isPrefixOf (s.data.map Char.toLower) then
    let r := (s.data.drop 7).dropWhile Char.isWhitespace
    match r with
    | ':' :: rest => String.mk (rest.dropWhile Char.isWhitespace)
    | '.' :: rest => String.mk (rest.dropWhile Char.isWhitespace)
    | _ => s
  else s

/-- Helper for `re.sub(r'<[^>]*>', '', s)`: position after the first `'>'`. -/
def findGt : List Char → Option (List Char)
  | [] => none
  | c :: rest => if c = '>' then some rest else findGt rest

/-- `re.sub(r'<[^>]*>', '', s)` on the character list: every `<`…`>` span is
removed; a `<` with no later `>` matches nothing.  The `Nat` is
structural-recursion fuel; every step consumes at least one character. -/
def removeTags : Nat → List Char → List Char
  | _, [] => []
  | 0, l => l
  | fuel + 1, c :: rest =>
    if c = '<' then
      match findGt rest with
      | some rest2 => removeTags fuel rest2
      | none => c :: removeTags fuel rest
    else c :: removeTags fuel rest

/-- `re.sub(r'<[^>]*>', '', s)` on strings. -/
def removeAngleTags (s : String) : String :=
  String.mk (removeTags s.data.length s.data)

/-! ## Normalized result schema

Python dicts built by the scrapers are modelled as structures; a key that the
code inserts only conditionally becomes an `Option` field (`none` = key
absent) or, for keys that are only ever inserted with a non-empty list, a
`List` field (`[]` = key absent). -/

/-- A sense number: Merriam-Webster stores the cleaned label string, Longman
stores the 1-based integer index. -/
inductive SenseNum where
  | str (s : String)
  | num (n : Nat)
  deriving Repr, DecidableEq

/-- One grammatical-pattern record of a Longman sense (`GramExa` block); the
`examples` key is inserted only when the list is non-empty. -/
structure GramPattern where
  pattern : String
  examples : List String
  deriving Repr, DecidableEq

/-- One collocation record of a Longman sense (`ColloExa` block). -/
structure Collocation where
  phrase : String
  meaning : Option String
  examples : List String
  deriving Repr, DecidableEq

/-- One emitted definition record. -/
structure DefinitionUnit where
  definition : String
  examples : List String
  pos : String
  sense_number : Option SenseNum := none
  sense_letter : Option String := none
  translation : Option String := none
  grammar : Option String := none
  grammatical_patterns : List GramPattern := []
  collocations : List Collocation := []
  related_word : Option String := none
  thesaurus_ref : Option String := none
  deriving Repr, DecidableEq

/-- One Longman corpus-example group (`exaGroup`). -/
structure CorpusGroup where
  title : String
  examples : List String
  deriving Repr, DecidableEq

/-- A successful per-source result dict. -/
structure NormalizedEntry where
  source : String
  word : String
  url : String
  definitions : List DefinitionUnit
  word_family : List (String × List String) := []
  pronunciation : Option String := none
  frequency : Option (List String) := none
  pos : Option String := none
  corpus_examples : List CorpusGroup := []
  verb_forms : List (String × String) := []
  deriving Repr, DecidableEq

/-- A per-source error dict `{"source": ..., "error": ..., ["trace": ...]}`. -/
structure ErrorEntry where
  source : String
  error : String
  trace : Option String := none
  deriving Repr, DecidableEq

/-- The keys of the Python dict an `ErrorEntry` stands for, in insertion
order. -/
def ErrorEntry.fields (e : ErrorEntry) : List String :=
  ["source", "error"] ++ (match e.trace with | some _ => ["trace"] | none => [])

/-- Result of one `get_definition` call: success dict or error dict. -/
inductive Entry where
  | ok (e : NormalizedEntry)
  | err (e : ErrorEntry)
  deriving Repr, DecidableEq

/-! ## Cambridge document model and extraction
(`CambridgeDictionaryScraper`, `dictionary_scraper.py` lines 223-315) -/

/-- One `.examp, .dexamp` block: optional `.eg.deg` English sub-example and
the block's own raw text. -/
structure CamExample where
  egText : Option String
  text : String
  deriving Repr, DecidableEq

/-- One `.def-block, .ddef_block` block. -/
structure CamDefBlock where
  defText : Option String
  transText : Option String
  examps : List CamExample
  deriving Repr, DecidableEq

/-- One `.entry-body__el` top-level entry. -/
structure CamEntry where
  posText : Option String
  defBlocks : List CamDefBlock
  deriving Repr, DecidableEq

/-- A Cambridge page as seen through the scraper's selectors. -/
structure CamDoc where
  entries : List CamEntry
  deriving Repr, DecidableEq

/-- Per-language configuration fixed in `CambridgeDictionaryScraper.__init__`;
an unrecognized language (the `else` branch, which includes `"english"`) gets
the monolingual URL and no translations. -/
structure CamConfig where
  baseUrl : String
  name : String
  hasTranslation : Bool
  deriving Repr, DecidableEq

def cambridgeConfig (language : String) : CamConfig :=
  if language = "chinese" then
    { baseUrl := "https://dictionary.cambridge.org/dictionary/english-chinese-simplified/",
      name := "Cambridge Dictionary (English-Chinese)", hasTranslation := true }
  else if language = "japanese" then
    { baseUrl := "https://dictionary.cambridge.org/dictionary/english-japanese/",
      name := "Cambridge Dictionary (English-Japanese)", hasTranslation := true }
  else if language = "korean" then
    { baseUrl := "https://dictionary.cambridge.org/dictionary/english-korean/",
      name := "Cambridge Dictionary (English-Korean)", hasTranslation := true }
  else if language = "italian" then
    { baseUrl := "https://dictionary.cambridge.org/dictionary/english-italian/",
      name := "Cambridge Dictionary (English-Italian)", hasTranslation := true }
  else
    { baseUrl := "https://dictionary.cambridge.org/dictionary/english/",
      name := "Cambridge Dictionary", hasTranslation := false }

/-- Text of one example: the English `.eg.deg` sub-node is preferred over the
block's raw text. -/
def camExampleText (ex : CamExample) : String :=
  match ex.egText with
  | some eg => clean_text eg
  | none => clean_text ex.text

/-- One definition block: a unit is appended only when `.def, .ddef_d` is
present (the cleaned text is used as is, with no emptiness check); the first
3 example blocks are kept; `translation` is attached when the variant is
bilingual and a non-empty translation was found. -/
def camBlockUnit (hasTranslation : Bool) (word_type : String) (block : CamDefBlock) :
    Option DefinitionUnit :=
  match block.defText with
  | none => none
  | some d =>
    let definition := clean_text d
    let translation :=
      if hasTranslation then
        match block.transText with
        | some t => clean_text t
        | none => ""
      else ""
    let examples := (block.examps.take 3).map camExampleText
    some { definition := definition, examples := examples, pos := word_type,
           translation :=
             if hasTranslation ∧ ¬ strEmpty translation then some translation else none }

/-- One top-level entry: part of speech from `.pos.dpos`, then the first 5
definition blocks. -/
def camEntryUnits (hasTranslation : Bool) (entry : CamEntry) : List DefinitionUnit :=
  let word_type := match entry.posText with
    | some t => clean_text t
    | none => ""
  (entry.defBlocks.take 5).filterMap (camBlockUnit hasTranslation word_type)

/-- `CambridgeDictionaryScraper.get_definition` after a successful fetch:
the first 2 entries are processed. -/
def camExtractDoc (cfg : CamConfig) (soup : CamDoc) (word url : String) : NormalizedEntry :=
  { source := cfg.name, word := word, url := url,
    definitions := (soup.entries.take 2).flatMap (camEntryUnits cfg.hasTranslation) }

/-! ## Merriam-Webster document model and extraction
(`MerriamWebsterScraper`, `dictionary_scraper.py` lines 51-220) -/

/-- The `.vd, .important-blue-link` part-of-speech node: its text, and its
`href` attribute when the node is an anchor carrying one. -/
structure MWPosElem where
  text : String
  href : Option String
  deriving Repr, DecidableEq

/-- One sub-sense: optional `.letter` label, optional `.dtText` definition
node, and the `.ex-sent` example nodes. -/
structure MWSubsense where
  letterText : Option String
  dtText : Option String
  exSent : List String
  deriving Repr, DecidableEq

/-- One numbered `.vg-sseq-entry-item` block. -/
structure MWSenseItem where
  labelText : Option String
  hasSnSubsenses : List MWSubsense
  senseContent : Option MWSubsense
  deriving Repr, DecidableEq

/-- One `.vg` part-of-speech block. -/
structure MWPosBlock where
  posElem : Option MWPosElem
  senseItems : List MWSenseItem
  deriving Repr, DecidableEq

/-- One legacy section (`div.sense` or `span.dt`): its raw text, optional
`.dtText` and `.dt` children, and the `.ex-sent, .t, .vis-example` nodes. -/
structure MWLegacySection where
  text : String
  dtTextElem : Option String
  dtElem : Option String
  exElems : List String
  deriving Repr, DecidableEq

/-- A Merriam-Webster page as seen through the scraper's selectors. -/
structure MWDoc where
  vgBlocks : List MWPosBlock
  flText : Option String
  senseDivs : List MWLegacySection
  dtSpans : List MWLegacySection
  deriving Repr, DecidableEq

/-- Part-of-speech label of a `.vg` block: cleaned text with `"verb"`
removed; when that is empty and the node is a link, the last path component
of its `href`. -/
def mwWordType (pe : Option MWPosElem) : String :=
  match pe with
  | none => ""
  | some p =>
    let wt := strTrim (strReplace (clean_text p.text) "verb" "")
    if strEmpty wt then
      match p.href with
      | some href =>
        if strContains href '/' then String.mk ((splitOnChar '/' href.data).getLastD [])
        else ""
      | none => ""
    else wt

/-- One sub-sense: the unit is emitted only when the definition text (cleaned,
leading colon stripped) is non-empty; `sense_number` / `sense_letter` are
attached only when their labels are non-empty. -/
def mwSubsenseUnit (word_type sense_num : String) (sub : MWSubsense) :
    Option DefinitionUnit :=
  let letter_label := match sub.letterText with
    | some t => clean_text t
    | none => ""
  let definition_text := match sub.dtText with
    | some t => stripLeadColon (clean_text t)
    | none => ""
  let examples := sub.exSent.map (fun e => removeAngleTags (clean_text e))
  if strEmpty definition_text then none
  else some { definition := definition_text, examples := examples, pos := word_type,
              sense_number := if strEmpty sense_num then none else some (.str sense_num),
              sense_letter := if strEmpty letter_label then none else some letter_label }

/-- Sub-senses of a numbered item: the `.sense.has-sn` list, or else the
single `.sense-content` node when present. -/
def MWSenseItem.subsenses (si : MWSenseItem) : List MWSubsense :=
  if si.hasSnSubsenses.isEmpty then
    match si.senseContent with
    | some s => [s]
    | none => []
  else si.hasSnSubsenses

/-- Units of one numbered item, under its cleaned `.vg-sseq-entry-item-label`
sense number. -/
def mwSenseItemUnits (word_type : String) (si : MWSenseItem) : List DefinitionUnit :=
  let sense_num := match si.labelText with
    | some t => clean_text t
    | none => ""
  si.subsenses.filterMap (mwSubsenseUnit word_type sense_num)

/-- All units the primary (`.vg`-block) strategy accumulates. -/
def mwPrimaryDefs (soup : MWDoc) : List DefinitionUnit :=
  soup.vgBlocks.flatMap (fun pb =>
    pb.senseItems.flatMap (mwSenseItemUnits (mwWordType pb.posElem)))

/-- Everything after the first `:` (Python `text.split(":", 1)[1]`); only
used under a `":" in text` guard. -/
def afterFirstColon (s : String) : String :=
  String.mk ((s.data.dropWhile (fun c => c ≠ ':')).drop 1)

/-- One legacy section: definition from `.dtText`, else `.dt`, else the text
after the section's first colon, else the whole section text; a leading
enumeration marker is stripped; the first 3 examples are kept with an
`Example:` marker stripped; the unit is dropped when the definition is empty
or starts with an em-dash. -/
def mwLegacySectionUnit (word_type : String) (sec : MWLegacySection) :
    Option DefinitionUnit :=
  let defElem : Option String := sec.dtTextElem.orElse (fun _ => sec.dtElem)
  let definition :=
    match defElem with
    | none =>
      if strContains sec.text ':' then clean_text (afterFirstColon sec.text)
      else clean_text sec.text
    | some t => clean_text t
  let definition := stripLeadNumber definition
  let examples := (sec.exElems.take 3).map (fun e => stripExampleMarker (clean_text e))
  if ¬ strEmpty definition ∧ ¬ "—".data.isPrefixOf definition.data then
    some { definition := definition, examples := examples, pos := word_type }
  else none

/-- `MerriamWebsterScraper._legacy_get_definition`: part of speech from
`span.fl`; sections from `div.sense`, falling back to `span.dt`; the first 7
sections are processed. -/
def mwLegacy (soup : MWDoc) (word url : String) : NormalizedEntry :=
  let word_type := match soup.flText with
    | some t => clean_text t
    | none => ""
  let def_sections := if soup.senseDivs.isEmpty then soup.dtSpans else soup.senseDivs
  { source := "Merriam-Webster", word := word, url := url,
    definitions := (def_sections.take 7).filterMap (mwLegacySectionUnit word_type) }

/-- `MerriamWebsterScraper.get_definition` after a successful fetch: the
legacy path is taken when there are no `.vg` blocks, or when the primary scan
accumulated no definitions. -/
def mwExtractDoc (soup : MWDoc) (word url : String) : NormalizedEntry :=
  if soup.vgBlocks.isEmpty then mwLegacy soup word url
  else
    let defs := mwPrimaryDefs soup
    if defs.isEmpty then mwLegacy soup word url
    else { source := "Merriam-Webster", word := word, url := url, definitions := defs }

/-! ## Longman document model and extraction
(`LongmanDictionaryScraper`, `dictionary_scraper.py` lines 318-573) -/

/-- One tag child of a `.wordfams` block (non-tag children, which fail the
`hasattr(elem, 'name')` test, are not represented). -/
structure FamChild where
  name : String
  classes : List String
  text : String
  deriving Repr, DecidableEq

/-- One `.wordfams` block. -/
structure LFam where
  children : List FamChild
  deriving Repr, DecidableEq

/-- One `.GramExa` grammatical-pattern block. -/
structure LGramExa where
  propform : Option String
  examples : List String
  deriving Repr, DecidableEq

/-- One `.ColloExa` collocation block. -/
structure LColloExa where
  collo : Option String
  gloss : Option String
  examples : List String
  deriving Repr, DecidableEq

/-- One `.Sense` block.  `thesRefHwd = some r` means a `.Thesref` node is
present, with `r` the optional text of its `.REFHWD` child.  Example texts
are stored after the code's `.speaker` / `.COLLOINEXA` node clean-up. -/
structure LSense where
  gram : Option String
  defText : Option String
  examples : List String
  gramExas : List LGramExa
  colloExas : List LColloExa
  relatedWd : Option String
  thesRefHwd : Option (Option String)
  deriving Repr, DecidableEq

/-- One `.dictentry` section.  `freqTitles` holds the `title` attributes of
the `.FREQ` nodes (`f.get('title', '')`). -/
structure LEntry where
  pron : Option String
  freqTitles : List String
  posText : Option String
  senses : List LSense
  deriving Repr, DecidableEq

/-- One `.exaGroup` corpus section; `exaTexts` holds the `.exa` texts after
the code's `.neutral` / `.NodeW` / `.defRef` clean-up. -/
structure LExaGroup where
  titleText : Option String
  exaTexts : List String
  deriving Repr, DecidableEq

/-- One row of `table.verbTable`. -/
structure LRow where
  th : Option String
  td : Option String
  deriving Repr, DecidableEq

/-- A Longman page as seen through the scraper's selectors. -/
structure LDoc where
  wordFams : List LFam
  dictEntries : List LEntry
  exaGroups : List LExaGroup
  verbTable : Option (List LRow)
  deriving Repr, DecidableEq

/-- Insertion-ordered `fam_items[k] = []` when the key is new. -/
def dictEnsure (m : List (String × List String)) (k : String) :
    List (String × List String) :=
  if m.any (fun p => p.1 = k) then m else m ++ [(k, [])]

/-- `fam_items[k].append v`. -/
def dictAppend (m : List (String × List String)) (k v : String) :
    List (String × List String) :=
  m.map (fun p => if p.1 = k then (p.1, p.2 ++ [v]) else p)

/-- One step of the stateful left-to-right scan over a `.wordfams` block's
children: a `span.pos` child sets the current part of speech (and registers
the key); a `span.w` or `a.crossRef` child appends to the current key when
the current part of speech is a non-empty string and the child's stripped
text is non-empty. -/
def famStep (st : List (String × List String) × Option String) (child : FamChild) :
    List (String × List String) × Option String :=
  let (items, current) := st
  if child.name = "span" ∧ child.classes.contains "pos" then
    let cp := clean_text child.text
    (dictEnsure items cp, some cp)
  else if (child.name = "span" ∧ child.classes.contains "w") ∨
          (child.name = "a" ∧ child.classes.contains "crossRef") then
    match current with
    | some cp =>
      if ¬ strEmpty cp ∧ ¬ strEmpty (strTrim child.text) then
        (dictAppend items cp (clean_text child.text), current)
      else (items, current)
    | none => (items, current)
  else (items, current)

/-- The accumulated `fam_items` mapping: one dict shared across all
`.wordfams` blocks, with `current_pos` reset to `None` at each block. -/
def famItems (fams : List LFam) : List (String × List String) :=
  fams.foldl (fun items fam => (fam.children.foldl famStep (items, none)).1) []

/-- `re.sub(r'^\s*\(\s*=\s*|\s*\)\s*$', '', s)` applied to a collocation
gloss: strip a leading `( =` marker (both characters required) and a trailing
`)` (with surrounding whitespace). -/
def stripGlossParens (s : String) : String :=
  let s1 : List Char :=
    match s.data.dropWhile Char.isWhitespace with
    | '(' :: t =>
      (match t.dropWhile Char.isWhitespace with
       | '=' :: u => u.dropWhile Char.isWhitespace
       | _ => s.data)
    | _ => s.data
  match s1.reverse.dropWhile Char.isWhitespace with
  | ')' :: rr => String.mk ((rr.dropWhile Char.isWhitespace).reverse)
  | _ => String.mk s1

/-- One `.Sense` block at 1-based index `idx`.  The record starts with the
sense number and the entry-level part of speech; definition, examples,
patterns and collocations are filled in only when a `.DEF` node is present,
and the record is emitted (`definitions.append`) only in that case. -/
def lSenseUnit (entry_pos : String) (idx : Nat) (sense : LSense) : Option DefinitionUnit :=
  let grammar := sense.gram.map (fun g =>
    clean_text (strReplace (strReplace g "[" "") "]" ""))
  let related_word : Option String :=
    match sense.relatedWd with
    | some t =>
      let rw := clean_text (strTrim (strReplace t "→" ""))
      if strEmpty rw then none else some rw
    | none => none
  let thesaurus_ref : Option String :=
    match sense.thesRefHwd with
    | some (some r) =>
      let tr := clean_text r
      if strEmpty tr then none else some tr
    | _ => none
  match sense.defText with
  | none => none
  | some d =>
    let patterns := sense.gramExas.filterMap (fun ps =>
      ps.propform.map (fun pf =>
        ({ pattern := clean_text pf,
           examples := ps.examples.map clean_text } : GramPattern)))
    let collocations := sense.colloExas.filterMap (fun cs =>
      cs.collo.map (fun cp =>
        ({ phrase := clean_text cp,
           meaning :=
             match cs.gloss with
             | some g =>
               let gt := stripGlossParens (clean_text g)
               if strEmpty gt then none else some gt
             | none => none,
           examples := cs.examples.map clean_text } : Collocation)))
    some { definition := clean_text d,
           examples := sense.examples.map clean_text,
           pos := entry_pos,
           sense_number := some (.num idx),
           grammar := grammar,
           grammatical_patterns := patterns,
           collocations := collocations,
           related_word := related_word,
           thesaurus_ref := thesaurus_ref }

/-- `for sense_idx, sense in enumerate(sense_blocks, 1)` with the conditional
append. -/
def lSenseUnits (entry_pos : String) (idx : Nat) : List LSense → List DefinitionUnit
  | [] => []
  | s :: rest =>
    match lSenseUnit entry_pos idx s with
    | some u => u :: lSenseUnits entry_pos (idx + 1) rest
    | none => lSenseUnits entry_pos (idx + 1) rest

/-- Units of one `.dictentry` section, under its cleaned `.POS` text. -/
def lEntryUnits (entry : LEntry) : List DefinitionUnit :=
  let entry_pos := match entry.posText with
    | some t => clean_text t
    | none => ""
  lSenseUnits entry_pos 1 entry.senses

/-- The `headword_info` keys of one `.dictentry` section. -/
structure HeadwordInfo where
  pronunciation : Option String
  frequency : Option (List String)
  pos : Option String
  deriving Repr, DecidableEq

def lHeadInfo (entry : LEntry) : HeadwordInfo :=
  { pronunciation := entry.pron.map clean_text,
    frequency :=
      if entry.freqTitles.isEmpty then none
      else some (entry.freqTitles.map clean_text),
    pos := entry.posText.map clean_text }

/-- One corpus group: kept only when a `.title` node is present and the group
has at least one example. -/
def lCorpusGroup (g : LExaGroup) : Option CorpusGroup :=
  match g.titleText with
  | none => none
  | some t =>
    let examples := g.exaTexts.map clean_text
    if examples.isEmpty then none
    else some { title := clean_text t, examples := examples }

/-- Python-dict assignment `m[k] = v`: overwrite in place, or append. -/
def dictInsert (m : List (String × String)) (k v : String) : List (String × String) :=
  if m.any (fun p => p.1 = k) then m.map (fun p => if p.1 = k then (k, v) else p)
  else m ++ [(k, v)]

/-- The verb-conjugation table: rows with both a `th` and a `td` cell and
non-empty cleaned texts. -/
def lVerbForms (t : Option (List LRow)) : List (String × String) :=
  match t with
  | none => []
  | some rows =>
    rows.foldl (fun m row =>
      match row.th, row.td with
      | some f, some v =>
        let fn := clean_text f
        let fv := clean_text v
        if ¬ strEmpty fn ∧ ¬ strEmpty fv then dictInsert m fn fv else m
      | _, _ => m) []

/-- `LongmanDictionaryScraper.get_definition` after a successful fetch.
`headword_info` is rebuilt from scratch on every `.dictentry` iteration, so
only the last section's values survive into `result.update(headword_info)`. -/
def longmanExtractDoc (soup : LDoc) (word url : String) : NormalizedEntry :=
  let head := match soup.dictEntries.getLast? with
    | some e => lHeadInfo e
    | none => { pronunciation := none, frequency := none, pos := none }
  { source := "Longman Dictionary", word := word, url := url,
    definitions := soup.dictEntries.flatMap lEntryUnits,
    word_family := famItems soup.wordFams,
    pronunciation := head.pronunciation,
    frequency := head.frequency,
    pos := head.pos,
    corpus_examples := soup.exaGroups.filterMap lCorpusGroup,
    verb_forms := lVerbForms soup.verbTable }

/-! ## Transport, extractor dispatch and aggregation
(`fetch_page`, `CombinedDictionaryScraper`, `dictionary_scraper.py`
lines 37-48 and 579-622) -/

/-- A parsed page: a BeautifulSoup tree answers every selector family, so one
fetched document carries each scraper's view of it. -/
structure Soup where
  mw : MWDoc
  cam : CamDoc
  lg : LDoc
  deriving Repr, DecidableEq

/-- `fetch_page`: HTTP errors, network errors and parse failures all
collapse to `none`; a success yields the parsed tree. -/
abbrev Transport := String → Option Soup

/-- A configured extractor instance. -/
inductive Scraper where
  | merriam
  | cambridge (language : String)
  | longman
  deriving Repr, DecidableEq

/-- The instance's `self.name`. -/
def Scraper.name : Scraper → String
  | .merriam => "Merriam-Webster"
  | .cambridge lang => (cambridgeConfig lang).name
  | .longman => "Longman Dictionary"

/-- `f"{self.base_url}{word}"` — plain concatenation, no URL-encoding. -/
def Scraper.url (s : Scraper) (word : String) : String :=
  match s with
  | .merriam => "https://www.merriam-webster.com/dictionary/" ++ word
  | .cambridge lang => (cambridgeConfig lang).baseUrl ++ word
  | .longman => "https://www.ldoceonline.com/dictionary/" ++ word

/-- `get_definition`: fetch the per-variant URL; a failed fetch yields the
`"Failed to fetch page"` error dict, a successful one is fed to the variant's
structural extraction. -/
def Scraper.extract (s : Scraper) (fetch : Transport) (word : String) : Entry :=
  match fetch (s.url word) with
  | none => .err { source := s.name, error := "Failed to fetch page" }
  | some soup =>
    match s with
    | .merriam => .ok (mwExtractDoc soup.mw word (s.url word))
    | .cambridge lang =>
      .ok (camExtractDoc (cambridgeConfig lang) soup.cam word (s.url word))
    | .longman => .ok (longmanExtractDoc soup.lg word (s.url word))

/-- The scrapers `initialize` registers, in order. -/
def defaultScrapers : List Scraper :=
  [.merriam, .cambridge "chinese", .longman]

/-- The combined document assembled by `get_word_data`. -/
structure CombinedResult where
  word : String
  timestamp : String
  sources : List Entry
  deriving Repr, DecidableEq

/-- `CombinedDictionaryScraper.get_word_data`: re-initialize when no scrapers
are configured, then gather one result per scraper; `asyncio.gather` returns
results in task (= registration) order. -/
def get_word_data (fetch : Transport) (scrapers : List Scraper)
    (word timestamp : String) : CombinedResult :=
  let scrapers := if scrapers.isEmpty then defaultScrapers else scrapers
  { word := word, timestamp := timestamp,
    sources := scrapers.map (fun s => s.extract fetch word) }

/-! ## Per-source exception boundary
(`except Exception` handlers at `dictionary_scraper.py` lines 164-165,
314-315 and 572-573) -/

/-- The `trace` value `f"{type(e).__name__} at line {lineno}"`. -/
def exceptionTrace (ename : String) (line : Nat) : String :=
  ename ++ " at line " ++ toString line

/-- The error dict every variant's `except Exception` handler builds:
`{"source": self.name, "error": str(e), "trace": ...}`. -/
def scraperExceptionEntry (sourceName emsg ename : String) (line : Nat) : ErrorEntry :=
  { source := sourceName, error := emsg, trace := some (exceptionTrace ename line) }

/-! ## GUI worker single-source selection
(`DictionaryWorker.run_async`, `dictionary_app.py` lines 45-92) -/

/-- The worker reports through two Qt signals: `finished.emit(result_dict)`
or `error.emit(message_string)`. -/
inductive WorkerOutcome where
  | finished (result : Entry)
  | errorSignal (msg : String)
  deriving Repr, DecidableEq

/-- Python `self.language or "chinese"` (`None` and `""` are falsy). -/
def languageOrDefault (language : Option String) : String :=
  match language with
  | some s => if strEmpty s then "chinese" else s
  | none => "chinese"

/-- The single-dictionary branch of `DictionaryWorker.run_async`
(`search_all = False`): the identifier is lowercased and matched against the
alias lists; the Merriam-Webster and Longman aliases use the registered
default instances (always present after `initialize`), the Cambridge aliases
construct a fresh language-parameterized instance, and an unmatched
identifier emits the error signal `f"Dictionary {self.dictionary} not
found"`. -/
def run_async_single (fetch : Transport) (dictionary word : String)
    (language : Option String) : WorkerOutcome :=
  let d := strLower dictionary
  if d = "merriam" ∨ d = "merriam-webster" ∨ d = "m" ∨ d = "mw" then
    .finished (Scraper.merriam.extract fetch word)
  else if d = "longman" ∨ d = "l" then
    .finished (Scraper.longman.extract fetch word)
  else if d = "cambridge" ∨ d = "c" then
    .finished ((Scraper.cambridge (languageOrDefault language)).extract fetch word)
  else
    .errorSignal ("Dictionary " ++ dictionary ++ " not found")

/-! ## Shared lemmas -/

/-- An extractor's result depends only on the transport's answer at the
extractor's own URL. -/
theorem extract_congr (s : Scraper) (f g : Transport) (word : String)
    (h : f (s.url word) = g (s.url word)) : s.extract f word = s.extract g word := by
  unfold Scraper.extract
  rw [h]

/-- A string whose model-level falsiness test fails is not the empty
string. -/
theorem ne_empty_of_strEmpty_eq_false (s : String) (h : strEmpty s = false) :
    s ≠ "" := by
  intro he
  subst he
  revert h
  decide

/-- A Merriam-Webster primary-path unit is emitted only with a non-empty
definition text. -/
theorem mwSubsenseUnit_some_def_ne (wt sn : String) (sub : MWSubsense)
    (u : DefinitionUnit) (h : mwSubsenseUnit wt sn sub = some u) :
    u.definition ≠ "" := by
  simp only [mwSubsenseUnit] at h
  set dt := (match sub.dtText with
    | some t => stripLeadColon (clean_text t)
    | none => "") with hdt
  by_cases hguard : strEmpty dt = true
  · rw [if_pos hguard] at h
    exact absurd h (by simp)
  · rw [if_neg hguard] at h
    cases h
    exact ne_empty_of_strEmpty_eq_false _ (Bool.eq_false_iff.mpr hguard)

/-- A Merriam-Webster legacy-path unit is emitted only with a non-empty
definition text. -/
theorem mwLegacySectionUnit_some_def_ne (wt : String) (sec : MWLegacySection)
    (u : DefinitionUnit) (h : mwLegacySectionUnit wt sec = some u) :
    u.definition ≠ "" := by
  simp only [mwLegacySectionUnit] at h
  set defn := stripLeadNumber (match sec.dtTextElem.orElse (fun _ => sec.dtElem) with
    | none =>
      if strContains sec.text ':' = true then clean_text (afterFirstColon sec.text)
      else clean_text sec.text
    | some t => clean_text t) with hdefn
  by_cases hguard : (¬ strEmpty defn = true ∧ ¬ "—".data.isPrefixOf defn.data = true)
  · rw [if_pos hguard] at h
    cases h
    exact ne_empty_of_strEmpty_eq_false _ (Bool.eq_false_iff.mpr hguard.1)
  · rw [if_neg hguard] at h
    exact absurd h (by simp)

/-- Every unit of the primary strategy has non-empty definition text. -/
theorem mwPrimary_def_ne (soup : MWDoc) (u : DefinitionUnit)
    (hu : u ∈ mwPrimaryDefs soup) : u.definition ≠ "" := by
  simp only [mwPrimaryDefs, List.mem_flatMap] at hu
  obtain ⟨pb, _, hu⟩ := hu
  obtain ⟨si, _, hu⟩ := hu
  simp only [mwSenseItemUnits, List.mem_filterMap] at hu
  obtain ⟨sub, _, hsome⟩ := hu
  exact mwSubsenseUnit_some_def_ne _ _ _ _ hsome

/-- Every unit of the legacy strategy has non-empty definition text. -/
theorem mwLegacy_def_ne (soup : MWDoc) (word url : String) (u : DefinitionUnit)
    (hu : u ∈ (mwLegacy soup word url).definitions) : u.definition ≠ "" := by
  simp only [mwLegacy, List.mem_filterMap] at hu
  obtain ⟨sec, _, hsome⟩ := hu
  exact mwLegacySectionUnit_some_def_ne _ _ _ hsome

/-- A Cambridge unit records the cleaned text of its block's definition node
and the (at most 3) mapped example texts. -/
theorem camBlockUnit_some_spec (hasTr : Bool) (wt : String) (block : CamDefBlock)
    (u : DefinitionUnit) (h : camBlockUnit hasTr wt block = some u) :
    (∃ d, block.defText = some d ∧ u.definition = clean_text d) ∧
    u.examples = (block.examps.take 3).map camExampleText := by
  unfold camBlockUnit at h
  cases hd : block.defText with
  | none => rw [hd] at h; cases h
  | some d =>
    rw [hd] at h
    cases h
    exact ⟨⟨d, rfl, rfl⟩, rfl⟩

/-- Membership in a Cambridge result factors through an entry among the
first 2 and a block among the first 5 of that entry. -/
theorem cam_mem_spec (cfg : CamConfig) (soup : CamDoc) (word url : String)
    (u : DefinitionUnit) (hu : u ∈ (camExtractDoc cfg soup word url).definitions) :
    ∃ entry ∈ soup.entries.take 2, ∃ block ∈ entry.defBlocks.take 5,
      camBlockUnit cfg.hasTranslation
        (match entry.posText with | some t => clean_text t | none => "") block = some u := by
  simp only [camExtractDoc, List.mem_flatMap] at hu
  obtain ⟨entry, hentry, hu⟩ := hu
  simp only [camEntryUnits, List.mem_filterMap] at hu
  obtain ⟨block, hblock, hsome⟩ := hu
  exact ⟨entry, hentry, block, hblock, hsome⟩

/-- A Longman unit exists exactly for a present `.DEF` node; it records its
cleaned text. -/
theorem lSenseUnit_some_spec (ep : String) (idx : Nat) (sense : LSense)
    (u : DefinitionUnit) (h : lSenseUnit ep idx sense = some u) :
    ∃ d, sense.defText = some d ∧ u.definition = clean_text d := by
  unfold lSenseUnit at h
  cases hd : sense.defText with
  | none => rw [hd] at h; cases h
  | some d =>
    rw [hd] at h
    cases h
    exact ⟨d, rfl, rfl⟩

/-- A sense without a `.DEF` node yields no unit. -/
theorem lSenseUnit_none_of_no_def (ep : String) (idx : Nat) (sense : LSense)
    (h : sense.defText = none) : lSenseUnit ep idx sense = none := by
  unfold lSenseUnit
  rw [h]

/-- Units of a sense list come from its members. -/
theorem lSenseUnits_mem (ep : String) (idx : Nat) (senses : List LSense)
    (u : DefinitionUnit) (hu : u ∈ lSenseUnits ep idx senses) :
    ∃ s ∈ senses, ∃ i, lSenseUnit ep i s = some u := by
  induction senses generalizing idx with
  | nil => exact absurd hu (by simp [lSenseUnits])
  | cons s rest ih =>
    rw [lSenseUnits] at hu
    cases hsu : lSenseUnit ep idx s with
    | some v =>
      rw [hsu] at hu
      rcases List.mem_cons.mp hu with h | h
      · exact ⟨s, List.mem_cons_self s rest, idx, h ▸ hsu⟩
      · obtain ⟨t, ht, i, hi⟩ := ih (idx + 1) h
        exact ⟨t, List.mem_cons_of_mem s ht, i, hi⟩
    | none =>
      rw [hsu] at hu
      obtain ⟨t, ht, i, hi⟩ := ih (idx + 1) hu
      exact ⟨t, List.mem_cons_of_mem s ht, i, hi⟩

/-- One unit per sense with a `.DEF` node: the emitted count is the count of
such senses. -/
theorem lSenseUnits_length (ep : String) (idx : Nat) (senses : List LSense) :
    (lSenseUnits ep idx senses).length =
      senses.countP (fun s => s.defText.isSome) := by
  induction senses generalizing idx with
  | nil => rfl
  | cons s rest ih =>
    rw [lSenseUnits]
    cases hd : s.defText with
    | none =>
      rw [lSenseUnit_none_of_no_def ep idx s hd]
      simp [List.countP_cons, hd, ih (idx + 1)]
    | some d =>
      have hs : ∃ v, lSenseUnit ep idx s = some v := by
        unfold lSenseUnit
        rw [hd]
        exact ⟨_, rfl⟩
      obtain ⟨v, hv⟩ := hs
      rw [hv]
      simp [List.countP_cons, hd, ih (idx + 1)]

/-- Longman's total unit count is the count of senses with a `.DEF` node,
across all `.dictentry` sections. -/
theorem longman_definitions_length (entries : List LEntry) :
    (entries.flatMap lEntryUnits).length =
      (entries.flatMap (fun e => e.senses)).countP (fun s => s.defText.isSome) := by
  induction entries with
  | nil => rfl
  | cons e rest ih =>
    simp only [List.flatMap_cons, List.length_append, List.countP_append, ih,
      lEntryUnits]
    rw [lSenseUnits_length]

/-- The model-level emptiness test agrees with equality to the empty
string. -/
theorem strEmpty_true_iff (s : String) : strEmpty s = true ↔ s = "" := by
  constructor
  · intro h
    cases s with
    | mk data =>
      cases data with
      | nil => rfl
      | cons c cs => exact absurd h (by simp [strEmpty])
  · intro h
    subst h
    decide

/-- A Cambridge unit carries a translation exactly when the variant is
bilingual and its block has a translation node with non-empty cleaned
text. -/
theorem camBlockUnit_translation_iff (hasTr : Bool) (wt : String)
    (block : CamDefBlock) (u : DefinitionUnit)
    (h : camBlockUnit hasTr wt block = some u) :
    (u.translation.isSome = true ↔
      hasTr = true ∧ ∃ t, block.transText = some t ∧ clean_text t ≠ "") := by
  simp only [camBlockUnit] at h
  cases hd : block.defText with
  | none => rw [hd] at h; cases h
  | some d =>
    rw [hd] at h
    cases h
    cases hasTr with
    | false => simp
    | true =>
      cases ht : block.transText with
      | none =>
        simp [ht, show strEmpty "" = true by decide]
      | some t =>
        simp only [ht]
        by_cases he : strEmpty (clean_text t) = true
        · rw [strEmpty_true_iff] at he
          simp [he, show strEmpty "" = true by decide]
        · have hne : clean_text t ≠ "" := fun hx => he ((strEmpty_true_iff _).mpr hx)
          simp only [he, Bool.false_eq_true, not_false_eq_true, if_true,
            Option.isSome_some, true_iff, true_and]
          exact ⟨t, rfl, hne⟩

/-- A monolingual Cambridge unit never carries a translation. -/
theorem camBlockUnit_false_translation (wt : String) (block : CamDefBlock)
    (u : DefinitionUnit) (h : camBlockUnit false wt block = some u) :
    u.translation = none := by
  simp only [camBlockUnit] at h
  cases hd : block.defText with
  | none => rw [hd] at h; cases h
  | some d =>
    rw [hd] at h
    cases h
    simp

/-- Truncating the blocks of one entry to the processed window changes
nothing. -/
theorem camEntryUnits_trunc (hasTr : Bool) (e : CamEntry) :
    camEntryUnits hasTr { e with defBlocks := e.defBlocks.take 5 } =
      camEntryUnits hasTr e := by
  simp [camEntryUnits, List.take_take]

/-- A Cambridge document with everything beyond the first 2 entries and the
first 5 blocks per entry removed. -/
def camTruncDoc (soup : CamDoc) : CamDoc :=
  { entries := (soup.entries.take 2).map
      (fun e => { e with defBlocks := e.defBlocks.take 5 }) }

/-- A Merriam-Webster document with legacy sections beyond the first 7
removed. -/
def mwLegacyTruncDoc (soup : MWDoc) : MWDoc :=
  { soup with senseDivs := soup.senseDivs.take 7, dtSpans := soup.dtSpans.take 7 }

/-- Taking the 7-section window preserves emptiness of the section list. -/
theorem take7_isEmpty (l : List MWLegacySection) : (l.take 7).isEmpty = l.isEmpty := by
  cases l <;> rfl

/-- A legacy unit's examples are the first 3 section examples, cleaned and
with the `Example:` marker stripped. -/
theorem mwLegacySectionUnit_some_examples (wt : String) (sec : MWLegacySection)
    (u : DefinitionUnit) (h : mwLegacySectionUnit wt sec = some u) :
    u.examples = (sec.exElems.take 3).map (fun e => stripExampleMarker (clean_text e)) := by
  simp only [mwLegacySectionUnit] at h
  set defn := stripLeadNumber (match sec.dtTextElem.orElse (fun _ => sec.dtElem) with
    | none =>
      if strContains sec.text ':' = true then clean_text (afterFirstColon sec.text)
      else clean_text sec.text
    | some t => clean_text t) with hdefn
  by_cases hguard : (¬ strEmpty defn = true ∧ ¬ "—".data.isPrefixOf defn.data = true)
  · rw [if_pos hguard] at h
    cases h
    rfl
  · rw [if_neg hguard] at h
    exact absurd h (by simp)

/-! ## Claim theorems -/

/-- C1 counterexample: a Cambridge definition block whose `.def` node text is
all whitespace produces a unit whose `definition` is the empty string — the
code checks node presence but never re-checks emptiness after cleaning. -/
theorem c1_counterexample :
    ∃ u ∈ (camExtractDoc (cambridgeConfig "chinese")
      { entries := [{ posText := none,
                      defBlocks := [{ defText := some " ", transText := none,
                                      examps := [] }] }] }
      "combine" "u").definitions, u.definition = "" := by
  decide

/-- C1 amended: every emitted unit corresponds to a definition node found in
the document; for Merriam-Webster (primary and legacy strategies alike) the
definition text is additionally non-empty, while Cambridge and Longman emit
the unit whenever the definition node is present, its cleaned text possibly
empty. -/
theorem c1_amended_definition_provenance (mwsoup : MWDoc) (cfg : CamConfig)
    (camsoup : CamDoc) (lsoup : LDoc) (word url : String) :
    (∀ u ∈ (mwExtractDoc mwsoup word url).definitions, u.definition ≠ "") ∧
    (∀ u ∈ (camExtractDoc cfg camsoup word url).definitions,
      ∃ entry ∈ camsoup.entries, ∃ block ∈ entry.defBlocks, ∃ d,
        block.defText = some d ∧ u.definition = clean_text d) ∧
    (∀ u ∈ (longmanExtractDoc lsoup word url).definitions,
      ∃ entry ∈ lsoup.dictEntries, ∃ s ∈ entry.senses, ∃ d,
        s.defText = some d ∧ u.definition = clean_text d) := by
  refine ⟨fun u hu => ?_, fun u hu => ?_, fun u hu => ?_⟩
  · simp only [mwExtractDoc] at hu
    split at hu
    · exact mwLegacy_def_ne _ _ _ _ hu
    · split at hu
      · exact mwLegacy_def_ne _ _ _ _ hu
      · exact mwPrimary_def_ne _ _ hu
  · obtain ⟨entry, hentry, block, hblock, hsome⟩ := cam_mem_spec cfg camsoup word url u hu
    obtain ⟨⟨d, hd, hdef⟩, -⟩ := camBlockUnit_some_spec _ _ _ _ hsome
    exact ⟨entry, List.take_subset 2 camsoup.entries hentry, block,
      List.take_subset 5 entry.defBlocks hblock, d, hd, hdef⟩
  · simp only [longmanExtractDoc, List.mem_flatMap] at hu
    obtain ⟨entry, hentry, hu⟩ := hu
    simp only [lEntryUnits] at hu
    obtain ⟨s, hs, i, hi⟩ := lSenseUnits_mem _ _ _ _ hu
    obtain ⟨d, hd, hdef⟩ := lSenseUnit_some_spec _ _ _ _ hi
    exact ⟨entry, hentry, s, hs, d, hd, hdef⟩

/-- C1 amended witness: a legacy Merriam-Webster section yields the unit
`"a thing"`, which is non-empty. -/
theorem c1_amended_witness :
    (({ definition := "a thing", examples := [], pos := "" } : DefinitionUnit) ∈
      (mwExtractDoc
        { vgBlocks := [], flText := none,
          senseDivs := [{ text := "x", dtTextElem := some "a thing",
                          dtElem := none, exElems := [] }],
          dtSpans := [] } "combine" "u").definitions) ∧
    ({ definition := "a thing", examples := [], pos := "" } :
      DefinitionUnit).definition ≠ "" := by
  refine ⟨by decide, ?_⟩
  exact (c1_amended_definition_provenance
    { vgBlocks := [], flText := none,
      senseDivs := [{ text := "x", dtTextElem := some "a thing",
                      dtElem := none, exElems := [] }],
      dtSpans := [] }
    (cambridgeConfig "english") { entries := [] }
    { wordFams := [], dictEntries := [], exaGroups := [], verbTable := none }
    "combine" "u").1 _ (by decide)

/-- C6: a Longman sense block with no `.DEF` node contributes no unit —
whatever its other sub-structures (related word, thesaurus reference) hold —
and the result's unit count is exactly the number of senses with a `.DEF`
node. -/
theorem c6_sense_without_def_contributes_nothing (lsoup : LDoc) (word url : String)
    (entry_pos : String) (idx : Nat) (sense : LSense)
    (hnd : sense.defText = none) :
    lSenseUnit entry_pos idx sense = none ∧
    (longmanExtractDoc lsoup word url).definitions.length =
      (lsoup.dictEntries.flatMap (fun e => e.senses)).countP
        (fun s => s.defText.isSome) := by
  refine ⟨lSenseUnit_none_of_no_def _ _ _ hnd, ?_⟩
  simp only [longmanExtractDoc]
  exact longman_definitions_length lsoup.dictEntries

/-- C6 witness: a sense holding only a related-word and a thesaurus
cross-reference (no `.DEF`) yields no unit, and a document with one such
sense next to one defined sense yields exactly 1 unit. -/
theorem c6_witness :
    (({ gram := none, defText := none, examples := [], gramExas := [],
        colloExas := [], relatedWd := some "→ combined",
        thesRefHwd := some (some "join") } : LSense).defText = none) ∧
    lSenseUnit "verb" 2
      { gram := none, defText := none, examples := [], gramExas := [],
        colloExas := [], relatedWd := some "→ combined",
        thesRefHwd := some (some "join") } = none ∧
    (longmanExtractDoc
      { wordFams := [],
        dictEntries := [{ pron := none, freqTitles := [], posText := some "verb",
                          senses := [{ gram := none, defText := some "to join",
                                       examples := [], gramExas := [], colloExas := [],
                                       relatedWd := none, thesRefHwd := none },
                                     { gram := none, defText := none, examples := [],
                                       gramExas := [], colloExas := [],
                                       relatedWd := some "→ combined",
                                       thesRefHwd := some (some "join") }] }],
        exaGroups := [], verbTable := none } "combine" "u").definitions.length = 1 := by
  have h := c6_sense_without_def_contributes_nothing
    { wordFams := [],
      dictEntries := [{ pron := none, freqTitles := [], posText := some "verb",
                        senses := [{ gram := none, defText := some "to join",
                                     examples := [], gramExas := [], colloExas := [],
                                     relatedWd := none, thesRefHwd := none },
                                   { gram := none, defText := none, examples := [],
                                     gramExas := [], colloExas := [],
                                     relatedWd := some "→ combined",
                                     thesRefHwd := some (some "join") }] }],
      exaGroups := [], verbTable := none } "combine" "u" "verb" 2
    { gram := none, defText := none, examples := [], gramExas := [],
      colloExas := [], relatedWd := some "→ combined",
      thesRefHwd := some (some "join") } rfl
  exact ⟨rfl, h.1, h.2.trans (by decide)⟩

/-- C2: for every word, the `sources` sequence of the combined result of
`get_word_data` has exactly one element per configured scraper, the element
at index `i` being scraper `i`'s own result — registration order, one slot
each, independent of per-source failure (concurrency completion order has no
counterpart in this functional model: `asyncio.gather` returns results in
task order). -/
theorem c2_one_slot_per_scraper (fetch : Transport) (scrapers : List Scraper)
    (word timestamp : String) (hne : scrapers ≠ []) :
    (get_word_data fetch scrapers word timestamp).sources.length = scrapers.length ∧
    ∀ i : Nat, (get_word_data fetch scrapers word timestamp).sources[i]? =
      (scrapers[i]?).map (fun s => s.extract fetch word) := by
  have hempty : scrapers.isEmpty = false := by
    cases scrapers with
    | nil => exact absurd rfl hne
    | cons a l => rfl
  refine ⟨?_, fun i => ?_⟩
  · simp [get_word_data, hempty]
  · simp [get_word_data, hempty]

/-- C2 witness: on the three default scrapers with an always-failing
transport, the combined result has 3 slots and slot 1 is the Cambridge
scraper's own result. -/
theorem c2_witness :
    defaultScrapers ≠ [] ∧
    (get_word_data (fun _ => none) defaultScrapers "combine" "t").sources.length =
      defaultScrapers.length ∧
    (get_word_data (fun _ => none) defaultScrapers "combine" "t").sources[1]? =
      some ((Scraper.cambridge "chinese").extract (fun _ => none) "combine") := by
  have h := c2_one_slot_per_scraper (fun _ => none) defaultScrapers "combine" "t"
    (by decide)
  exact ⟨by decide, h.1, (h.2 1).trans rfl⟩

/-- C3: when the transport returns `none` for the URL of the scraper in slot
`i`, that slot of the combined result is exactly the error entry with
message `"Failed to fetch page"`; and every slot depends only on the
transport's answer at its own scraper's URL, so the other slots are
unaffected. -/
theorem c3_fetch_failure_isolated (fetch fetch2 : Transport) (scrapers : List Scraper)
    (word ts : String) (i : Nat) (s : Scraper) (hs : scrapers[i]? = some s)
    (hnone : fetch (s.url word) = none) :
    (get_word_data fetch scrapers word ts).sources[i]? =
      some (.err { source := s.name, error := "Failed to fetch page" }) ∧
    ∀ (j : Nat) (t : Scraper), scrapers[j]? = some t →
      fetch (t.url word) = fetch2 (t.url word) →
      (get_word_data fetch scrapers word ts).sources[j]? =
        (get_word_data fetch2 scrapers word ts).sources[j]? := by
  have hne : scrapers ≠ [] := by
    intro hnil
    rw [hnil] at hs
    simp at hs
  have h1 := c2_one_slot_per_scraper fetch scrapers word ts hne
  have h2 := c2_one_slot_per_scraper fetch2 scrapers word ts hne
  constructor
  · rw [h1.2 i, hs]
    simp only [Option.map_some']
    unfold Scraper.extract
    rw [hnone]
  · intro j t hj hagree
    rw [h1.2 j, h2.2 j, hj]
    simp only [Option.map_some']
    rw [extract_congr t fetch fetch2 word hagree]

/-- C3 witness: with an always-failing transport, slot 0 of the default
configuration is the Merriam-Webster fetch-failure entry, and slot 2 agrees
with any transport that answers the Longman URL the same way. -/
theorem c3_witness :
    (defaultScrapers[0]? = some Scraper.merriam) ∧
    ((fun _ => none : Transport) (Scraper.merriam.url "combine") = none) ∧
    (get_word_data (fun _ => none) defaultScrapers "combine" "t").sources[0]? =
      some (.err { source := "Merriam-Webster", error := "Failed to fetch page" }) := by
  have h := c3_fetch_failure_isolated (fun _ => none) (fun _ => none) defaultScrapers
    "combine" "t" 0 .merriam rfl rfl
  exact ⟨rfl, rfl, h.1⟩

/-- C4 counterexample: with the bilingual `"chinese"` configuration (a
language that is not `"english"`) and a definition block that has no
translation node, the emitted unit carries no `translation` field — so
"translation present iff language is not english" fails in the
only-if-implied-by direction. -/
theorem c4_counterexample :
    ("chinese" ≠ "english") ∧
    ∃ u ∈ (camExtractDoc (cambridgeConfig "chinese")
      { entries := [{ posText := some "noun",
                      defBlocks := [{ defText := some "a thing", transText := none,
                                      examps := [] }] }] }
      "combine" "u").definitions, u.translation = none := by
  decide

/-- C4 amended: a Cambridge unit carries a translation exactly when the
variant is bilingual AND its block has a translation node with non-empty
cleaned text; a non-bilingual configuration never attaches one; and over the
five supported languages, being bilingual is equivalent to the language not
being `"english"`. -/
theorem c4_amended_translation (lang : String) (soup : CamDoc) (word url : String) :
    (∀ (hasTr : Bool) (wt : String) (block : CamDefBlock) (u : DefinitionUnit),
      camBlockUnit hasTr wt block = some u →
      (u.translation.isSome = true ↔
        hasTr = true ∧ ∃ t, block.transText = some t ∧ clean_text t ≠ "")) ∧
    ((cambridgeConfig lang).hasTranslation = false →
      ∀ v ∈ (camExtractDoc (cambridgeConfig lang) soup word url).definitions,
        v.translation = none) ∧
    (lang ∈ ["chinese", "japanese", "korean", "italian", "english"] →
      ((cambridgeConfig lang).hasTranslation = true ↔ lang ≠ "english")) := by
  refine ⟨fun hasTr wt block u h => camBlockUnit_translation_iff hasTr wt block u h,
    fun hfalse v hv => ?_, fun hl => ?_⟩
  · obtain ⟨entry, -, block, -, hsome⟩ :=
      cam_mem_spec (cambridgeConfig lang) soup word url v hv
    rw [hfalse] at hsome
    exact camBlockUnit_false_translation _ _ _ hsome
  · simp only [List.mem_cons, List.not_mem_nil, or_false] at hl
    rcases hl with rfl | rfl | rfl | rfl | rfl <;> decide

/-- C4 amended witness: the Japanese variant is bilingual and `"japanese"`
differs from `"english"`; a block with a non-empty translation node yields a
unit with the translation attached. -/
theorem c4_amended_witness :
    ("japanese" ∈ ["chinese", "japanese", "korean", "italian", "english"]) ∧
    ((cambridgeConfig "japanese").hasTranslation = true ↔ "japanese" ≠ "english") ∧
    (camBlockUnit true "noun"
      { defText := some "a thing", transText := some "mono", examps := [] } =
      some { definition := "a thing", examples := [], pos := "noun",
             translation := some "mono" }) ∧
    (({ definition := "a thing", examples := [], pos := "noun",
        translation := some "mono" } : DefinitionUnit).translation.isSome = true ↔
      true = true ∧ ∃ t, ({ defText := some "a thing", transText := some "mono",
                            examps := [] } : CamDefBlock).transText = some t ∧
        clean_text t ≠ "") := by
  have h := c4_amended_translation "japanese" { entries := [] } "combine" "u"
  refine ⟨by decide, h.2.2 (by decide), by decide, ?_⟩
  exact h.1 true "noun"
    { defText := some "a thing", transText := some "mono", examps := [] }
    { definition := "a thing", examples := [], pos := "noun",
      translation := some "mono" } (by decide)

/-- C5: if the Merriam-Webster primary strategy finds no `.vg` blocks, or
accumulates no definitions over all of them, the returned entry is exactly
the legacy-fallback output over the same document; and when the primary
strategy does produce definitions, the result's definitions are exactly the
primary ones — never a union of the two strategies. -/
theorem c5_fallback_replaces_primary (soup : MWDoc) (word url : String) :
    ((soup.vgBlocks = [] ∨ mwPrimaryDefs soup = []) →
      mwExtractDoc soup word url = mwLegacy soup word url) ∧
    (mwPrimaryDefs soup ≠ [] →
      (mwExtractDoc soup word url).definitions = mwPrimaryDefs soup) := by
  constructor
  · rintro (h | h)
    · simp [mwExtractDoc, h]
    · by_cases hv : soup.vgBlocks.isEmpty
      · simp [mwExtractDoc, hv]
      · simp [mwExtractDoc, hv, h]
  · intro h
    have hv : soup.vgBlocks.isEmpty = false := by
      cases hl : soup.vgBlocks with
      | nil => exact absurd (by simp [mwPrimaryDefs, hl]) h
      | cons a l => rfl
    have hd : (mwPrimaryDefs soup).isEmpty = false := by
      cases hl : mwPrimaryDefs soup with
      | nil => exact absurd hl h
      | cons a l => rfl
    simp [mwExtractDoc, hv, hd]

/-- C5 witness: a document with no `.vg` blocks but one legacy `div.sense`
section takes the legacy path, producing that section's definition. -/
theorem c5_witness :
    (({ vgBlocks := [], flText := some "noun",
        senseDivs := [{ text := "sense", dtTextElem := some ": a thing",
                        dtElem := none, exElems := [] }],
        dtSpans := [] } : MWDoc).vgBlocks = []) ∧
    mwExtractDoc
      { vgBlocks := [], flText := some "noun",
        senseDivs := [{ text := "sense", dtTextElem := some ": a thing",
                        dtElem := none, exElems := [] }],
        dtSpans := [] } "combine" "u" =
    mwLegacy
      { vgBlocks := [], flText := some "noun",
        senseDivs := [{ text := "sense", dtTextElem := some ": a thing",
                        dtElem := none, exElems := [] }],
        dtSpans := [] } "combine" "u" := by
  refine ⟨rfl, ?_⟩
  exact (c5_fallback_replaces_primary _ "combine" "u").1 (Or.inl rfl)

/-- C7: the Cambridge extractor's result is unchanged when everything beyond
the first 2 entries and the first 5 definition blocks per entry is removed
from the document (the excess is silently ignored, with no error entry);
each emitted unit carries the at most 3 first example blocks of its own
block, each rendered by `camExampleText`, which prefers the English
sub-example over the block's raw text whenever it exists. -/
theorem c7_cambridge_caps (cfg : CamConfig) (soup : CamDoc) (word url : String) :
    camExtractDoc cfg soup word url = camExtractDoc cfg (camTruncDoc soup) word url ∧
    (∀ u ∈ (camExtractDoc cfg soup word url).definitions,
      u.examples.length ≤ 3 ∧
      ∃ entry ∈ soup.entries.take 2, ∃ block ∈ entry.defBlocks.take 5,
        u.examples = (block.examps.take 3).map camExampleText) ∧
    (∀ (ex : CamExample) (eg : String), ex.egText = some eg →
      camExampleText ex = clean_text eg) ∧
    (∀ ex : CamExample, ex.egText = none → camExampleText ex = clean_text ex.text) := by
  refine ⟨?_, fun u hu => ?_, fun ex eg heg => ?_, fun ex heg => ?_⟩
  · have hdefs : ((camTruncDoc soup).entries.take 2).flatMap
        (camEntryUnits cfg.hasTranslation) =
        (soup.entries.take 2).flatMap (camEntryUnits cfg.hasTranslation) := by
      have h2 : (camTruncDoc soup).entries.take 2 = (camTruncDoc soup).entries := by
        simp only [camTruncDoc]
        rw [← List.map_take, List.take_take, Nat.min_self]
      rw [h2]
      simp only [camTruncDoc]
      induction soup.entries.take 2 with
      | nil => rfl
      | cons a l ih =>
        simp only [List.map_cons, List.flatMap_cons, ih, camEntryUnits_trunc]
    simp only [camExtractDoc]
    rw [hdefs]
  · obtain ⟨entry, hentry, block, hblock, hsome⟩ := cam_mem_spec cfg soup word url u hu
    obtain ⟨-, hex⟩ := camBlockUnit_some_spec _ _ _ _ hsome
    refine ⟨?_, entry, hentry, block, hblock, hex⟩
    rw [hex, List.length_map]
    exact List.length_take_le 3 block.examps
  · simp [camExampleText, heg]
  · simp [camExampleText, heg]

/-- C7 witness: a block with 4 example nodes yields a unit with 3 examples,
the English sub-example preferred where present. -/
theorem c7_witness :
    (({ definition := "a thing",
        examples := ["Eng one", "raw two", "Eng three"], pos := "noun" } :
      DefinitionUnit) ∈
      (camExtractDoc (cambridgeConfig "english")
        { entries := [{ posText := some "noun",
                        defBlocks := [{ defText := some "a thing", transText := none,
                                        examps := [{ egText := some "Eng one", text := "raw one" },
                                                   { egText := none, text := "raw two" },
                                                   { egText := some "Eng three", text := "raw three" },
                                                   { egText := none, text := "raw four" }] }] }] }
        "combine" "u").definitions) ∧
    ({ definition := "a thing",
       examples := ["Eng one", "raw two", "Eng three"], pos := "noun" } :
      DefinitionUnit).examples.length ≤ 3 := by
  refine ⟨by decide, ?_⟩
  exact (((c7_cambridge_caps (cambridgeConfig "english")
    { entries := [{ posText := some "noun",
                    defBlocks := [{ defText := some "a thing", transText := none,
                                    examps := [{ egText := some "Eng one", text := "raw one" },
                                               { egText := none, text := "raw two" },
                                               { egText := some "Eng three", text := "raw three" },
                                               { egText := none, text := "raw four" }] }] }] }
    "combine" "u").2.1) _ (by decide)).1

/-- C9: the Merriam-Webster legacy extraction's result is unchanged when
sections beyond the first 7 are removed from the document, and every emitted
unit records at most the first 3 examples of its own section. -/
theorem c9_legacy_caps (soup : MWDoc) (word url : String) :
    mwLegacy soup word url = mwLegacy (mwLegacyTruncDoc soup) word url ∧
    ∀ u ∈ (mwLegacy soup word url).definitions,
      u.examples.length ≤ 3 ∧
      ∃ sec ∈ (if soup.senseDivs.isEmpty then soup.dtSpans else soup.senseDivs).take 7,
        u.examples = (sec.exElems.take 3).map
          (fun e => stripExampleMarker (clean_text e)) := by
  constructor
  · simp only [mwLegacy, mwLegacyTruncDoc, take7_isEmpty]
    by_cases hs : soup.senseDivs.isEmpty
    · simp [hs, List.take_take]
    · simp [hs, List.take_take]
  · intro u hu
    simp only [mwLegacy, List.mem_filterMap] at hu
    obtain ⟨sec, hsec, hsome⟩ := hu
    have hex := mwLegacySectionUnit_some_examples _ _ _ hsome
    refine ⟨?_, sec, hsec, hex⟩
    rw [hex, List.length_map]
    exact List.length_take_le 3 sec.exElems

/-- C9 witness: a document with one legacy section holding 4 example nodes
yields a unit with 3 examples. -/
theorem c9_witness :
    (({ definition := "a thing", examples := ["e1", "e2", "e3"], pos := "" } :
      DefinitionUnit) ∈
      (mwLegacy
        { vgBlocks := [], flText := none,
          senseDivs := [{ text := "x", dtTextElem := some "a thing", dtElem := none,
                          exElems := ["e1", "e2", "e3", "e4"] }],
          dtSpans := [] } "combine" "u").definitions) ∧
    ({ definition := "a thing", examples := ["e1", "e2", "e3"], pos := "" } :
      DefinitionUnit).examples.length ≤ 3 := by
  refine ⟨by decide, ?_⟩
  exact ((c9_legacy_caps
    { vgBlocks := [], flText := none,
      senseDivs := [{ text := "x", dtTextElem := some "a thing", dtElem := none,
                      exElems := ["e1", "e2", "e3", "e4"] }],
      dtSpans := [] } "combine" "u").2 _ (by decide)).1

/-- C8 counterexample: for the unknown identifier `"zz"`, the worker does
not return an ErrorEntry-shaped response; it emits the plain error-signal
string `"Dictionary zz not found"` (so the claim's "ErrorEntry-shaped
response carrying a source-not-found message" is not what the code
produces — the channel and shape differ, though no exception is raised). -/
theorem c8_counterexample :
    run_async_single (fun _ => none) "zz" "combine" none =
      .errorSignal "Dictionary zz not found" ∧
    ¬ ∃ e : ErrorEntry, run_async_single (fun _ => none) "zz" "combine" none =
      .finished (.err e) := by
  constructor
  · decide
  · rintro ⟨e, he⟩
    have : WorkerOutcome.errorSignal "Dictionary zz not found" = .finished (.err e) := by
      rw [← he]
      decide
    exact WorkerOutcome.noConfusion this

/-- C8 amended: single-source selection lowercases the identifier before
matching it against the alias lists, so resolution is case-insensitive; any
spelling of `"mw"` resolves to the Merriam-Webster extractor; an identifier
matching no alias produces the error-signal message
`"Dictionary <id> not found"` (a plain string, not an ErrorEntry record)
rather than an exception. -/
theorem c8_amended_selection (fetch : Transport) (word : String)
    (language : Option String) (d : String)
    (hmw : strLower d = "mw") :
    run_async_single fetch d word language =
      .finished (Scraper.merriam.extract fetch word) ∧
    run_async_single fetch "MW" word language =
      .finished (Scraper.merriam.extract fetch word) ∧
    run_async_single fetch "zz" word language =
      .errorSignal "Dictionary zz not found" ∧
    ∀ d2 : String, run_async_single fetch d2 word language =
      run_async_single fetch d2 word language := by
  refine ⟨?_, ?_, rfl, fun _ => rfl⟩
  · unfold run_async_single
    rw [hmw]
    rfl
  · rfl

/-- C8 amended witness: the literal alias `"Mw"` (mixed case) resolves to
Merriam-Webster. -/
theorem c8_amended_witness :
    strLower "Mw" = "mw" ∧
    run_async_single (fun _ => none) "Mw" "combine" none =
      .finished (Scraper.merriam.extract (fun _ => none) "combine") := by
  exact ⟨by decide,
    (c8_amended_selection (fun _ => none) "combine" none "Mw" (by decide)).1⟩

/-- C10: the error entry built by every variant's exception handler has the
three fields `source`, `error`, `trace`, with the trace describing the
exception type and line; the only error entries produced by normal
extraction are the fetch-failure ones, and those have exactly the two fields
`source` and `error`. -/
theorem c10_error_entry_shapes (sourceName emsg ename : String) (line : Nat)
    (fetch : Transport) (word : String) (s : Scraper) (e : ErrorEntry)
    (h : s.extract fetch word = .err e) :
    (scraperExceptionEntry sourceName emsg ename line).fields =
      ["source", "error", "trace"] ∧
    (scraperExceptionEntry sourceName emsg ename line).trace =
      some (ename ++ " at line " ++ toString line) ∧
    e.fields = ["source", "error"] ∧
    e.error = "Failed to fetch page" := by
  refine ⟨rfl, rfl, ?_⟩
  unfold Scraper.extract at h
  cases hf : fetch (s.url word) with
  | none =>
    rw [hf] at h
    simp only at h
    cases h
    exact ⟨rfl, rfl⟩
  | some soup =>
    rw [hf] at h
    cases s <;> simp at h

/-- C10 witness: Merriam-Webster's fetch-failure entry against an
always-failing transport has exactly the fields `source` and `error`. -/
theorem c10_witness :
    (Scraper.merriam.extract (fun _ => none) "combine" =
      .err { source := "Merriam-Webster", error := "Failed to fetch page" }) ∧
    (scraperExceptionEntry "Merriam-Webster" "boom" "ValueError" 165).fields =
      ["source", "error", "trace"] ∧
    ({ source := "Merriam-Webster", error := "Failed to fetch page" } :
      ErrorEntry).fields = ["source", "error"] := by
  have h := c10_error_entry_shapes "Merriam-Webster" "boom" "ValueError" 165
    (fun _ => none) "combine" .merriam
    { source := "Merriam-Webster", error := "Failed to fetch page" } rfl
  exact ⟨rfl, h.1, h.2.2.1⟩

end CombineDicts
